import Mathlib

/-!
Verification of the WhiteBoard drawing-board application core.

The development shallowly embeds three source units:
* the object/history store reducer of `src/context/AppProvider.jsx`;
* the connector geometry helpers of `src/utils/arrowHelpers.js`;
* the pointer-interaction commit logic of `src/components/Canvas/BoardCanvas.jsx`.

JS numbers are modelled as `ℚ` (exact arithmetic); `ℝ` is used where the
source computes a square root (`Math.hypot`).  JS object maps keyed by entity
id are modelled as association lists `List (String × Entity)` with
spread-insert / delete / first-match lookup mirroring plain JS objects.
-/

namespace WhiteBoard

/-- Board entity (`src` data model).  The fields carried here are exactly the
ones the embedded functions read: `id`, the `type` tag, the geometry fields
`x y width height radius`, and the arrow linkage `startId`/`endId`.
Style and text payload fields (`fill`, `stroke`, `text`, ...) are never
inspected by any embedded function and are omitted. -/
structure Entity where
  id : String
  type : String
  x : ℚ := 0
  y : ℚ := 0
  width : ℚ := 0
  height : ℚ := 0
  radius : ℚ := 0
  startId : Option String := none
  endId : Option String := none
deriving DecidableEq

/-- First-match lookup in an association list, as JS property read
`objects[id]` (keys of a JS object are unique; lookup takes the first pair). -/
def mlookup (k : String) : List (String × Entity) → Option Entity
  | [] => none
  | p :: rest => if p.1 = k then some p.2 else mlookup k rest

/-- JS spread-update `{...objects, [id]: v}`: an existing key keeps its
position and gets the new value, a fresh key is appended at the end. -/
def minsert (k : String) (v : Entity) (m : List (String × Entity)) :
    List (String × Entity) :=
  if (mlookup k m).isSome then
    m.map (fun p => if p.1 = k then (k, v) else p)
  else
    m ++ [(k, v)]

/-- JS `delete objects[id]`. -/
def mremove (k : String) (m : List (String × Entity)) :
    List (String × Entity) :=
  m.filter (fun p => p.1 ≠ k)

/-- The `reconnect` sub-record of the store state (`AppProvider.jsx`). -/
structure ReconnectState where
  active : Bool
  arrowId : Option String
  endpoint : Option String
deriving DecidableEq

/-- Store state (`AppProvider.jsx` `initialState` shape).  `boardId`, the
`user` record and `remoteCursors` are never read or written by the reducer
and are omitted. -/
structure AppState where
  objects : List (String × Entity)
  selectedIds : List String
  mode : String
  history : List (List (String × Entity))
  future : List (List (String × Entity))
  historyLimit : Nat
  reconnect : ReconnectState
deriving DecidableEq

/-- `initialState` of `AppProvider.jsx` (the fields the reducer touches). -/
def initialState : AppState :=
  { objects := []
    selectedIds := []
    mode := "select"
    history := []
    future := []
    historyLimit := 50
    reconnect := { active := false, arrowId := none, endpoint := none } }

/-- Store actions (`ActionTypes` plus the two reconnect actions handled by the
reducer, plus a constructor for any unknown action kind reaching the default
case).  The `UPDATE_OBJECT` payload `{id, updates}` performs the JS shallow
merge `{...existingObject, ...updates}`; the merge is modelled by the function
it induces on the stored entity. -/
inductive Action where
  | setMode (mode : String)
  | setSelected (ids : List String)
  | addObject (payload : Entity)
  | updateObject (id : String) (updates : Entity → Entity)
  | deleteObject (id : String)
  | clearBoard
  | undo
  | redo
  | reconnectStart (arrowId : String) (endpoint : String)
  | reconnectEnd
  | unknown

/-- The reducer of `AppProvider.jsx` (lines 280-390), case for case. -/
def reducer (state : AppState) (action : Action) : AppState :=
  match action with
  | .setMode m => { state with mode := m }
  | .setSelected ids => { state with selectedIds := ids }
  | .addObject payload =>
      { state with
        objects := minsert payload.id payload state.objects
        selectedIds := [payload.id]
        history := state.history ++ [state.objects]
        future := [] }
  | .updateObject i updates =>
      match mlookup i state.objects with
      | none => state
      | some existingObject =>
          { state with
            objects := minsert i (updates existingObject) state.objects
            history := state.history ++ [state.objects]
            future := [] }
  | .deleteObject i =>
      { state with
        objects := mremove i state.objects
        selectedIds := state.selectedIds.filter (fun j => j ≠ i)
        history := state.history ++ [state.objects]
        future := [] }
  | .clearBoard =>
      { state with
        objects := []
        selectedIds := []
        history := state.history ++ [state.objects]
        future := [] }
  | .undo =>
      match state.history.getLast? with
      | none => state
      | some previous =>
          { state with
            objects := previous
            history := state.history.dropLast
            future := state.future ++ [state.objects]
            selectedIds := [] }
  | .redo =>
      match state.future.getLast? with
      | none => state
      | some nxt =>
          { state with
            objects := nxt
            future := state.future.dropLast
            history := state.history ++ [state.objects]
            selectedIds := [] }
  | .reconnectStart aid ep =>
      { state with
        reconnect := { active := true, arrowId := some aid, endpoint := some ep } }
  | .reconnectEnd =>
      { state with
        reconnect := { active := false, arrowId := none, endpoint := none } }
  | .unknown => state

/-- Fold a list of actions through the reducer. -/
def applyAll (s : AppState) (acts : List Action) : AppState :=
  acts.foldl reducer s

/-- One `UNDO` dispatch. -/
def undoStep (s : AppState) : AppState := reducer s .undo

/-- One `REDO` dispatch. -/
def redoStep (s : AppState) : AppState := reducer s .redo

/-- `n` consecutive `UNDO` dispatches. -/
def undoN (n : Nat) (s : AppState) : AppState := undoStep^[n] s

/-- `n` consecutive `REDO` dispatches. -/
def redoN (n : Nat) (s : AppState) : AppState := redoStep^[n] s

/-- The mutating action kinds in the sense of the history properties:
`ADD_OBJECT`, `UPDATE_OBJECT`, `DELETE_OBJECT`, `CLEAR_BOARD`. -/
def isMutating : Action → Bool
  | .addObject _ => true
  | .updateObject _ _ => true
  | .deleteObject _ => true
  | .clearBoard => true
  | _ => false

/-- An action is effective on a state when it actually reaches its mutation
branch: `UPDATE_OBJECT` requires its id to be present (the reducer returns the
state unchanged otherwise); every other kind is unconditional. -/
def effectiveOn (a : Action) (s : AppState) : Bool :=
  match a with
  | .updateObject i _ => (mlookup i s.objects).isSome
  | _ => true

/-- Every action of the sequence is effective on the state it is applied to. -/
def effectiveSeq : AppState → List Action → Bool
  | _, [] => true
  | s, a :: rest => effectiveOn a s && effectiveSeq (reducer s a) rest

/-- Selection referential invariant: every selected id is a key of the
current object mapping. -/
def SelInv (s : AppState) : Prop :=
  ∀ i ∈ s.selectedIds, (mlookup i s.objects).isSome = true

/-- Side condition under which an action preserves `SelInv`: a
`SET_SELECTED` payload may only name present ids; all other kinds are
unconditional. -/
def selOk (a : Action) (s : AppState) : Bool :=
  match a with
  | .setSelected ids => ids.all (fun i => (mlookup i s.objects).isSome)
  | _ => true

/-! ## Geometry engine (`src/utils/arrowHelpers.js`) -/

/-- `getCenter` of `arrowHelpers.js` on a non-null entity: `sticky` and
`rect` get `(x + width/2, y + height/2)`; every other type (including
`circle`, `image`, `text`) returns the raw `(x, y)`.  The source's separate
`circle` branch returns the same raw `(x, y)` as its final fallback. -/
def centerOf (o : Entity) : ℚ × ℚ :=
  if o.type = "sticky" ∨ o.type = "rect" then
    (o.x + o.width / 2, o.y + o.height / 2)
  else if o.type = "circle" then
    (o.x, o.y)
  else
    (o.x, o.y)

/-- `getCenter` of `arrowHelpers.js`, including the null guard
`if (!o) return {x: 0, y: 0}`. -/
def getCenter (o : Option Entity) : ℚ × ℚ :=
  match o with
  | none => (0, 0)
  | some e => centerOf e

/-- `getObjectCenter` of `BoardCanvas.jsx` (lines 11-25): `circle`, `image`
and `sticky` return the raw `(x, y)`; `rect` returns the box center; `text`
returns `(x + (width || 80) / 2, y + 12)` (JS `||` treats a zero/absent width
as 80); the default branch returns `(x || 0, y || 0)`, which over total `ℚ`
fields is the raw `(x, y)`. -/
def getObjectCenter (o : Option Entity) : ℚ × ℚ :=
  match o with
  | none => (0, 0)
  | some e =>
    if e.type = "circle" ∨ e.type = "image" ∨ e.type = "sticky" then
      (e.x, e.y)
    else if e.type = "rect" then
      (e.x + e.width / 2, e.y + e.height / 2)
    else if e.type = "text" then
      (e.x + (if e.width = 0 then 80 else e.width) / 2, e.y + 12)
    else
      (e.x, e.y)

/-- First element of the candidate list after the source's ascending stable
sort by `t` (`t.sort((a,b) => a.t - b.t); t[0]`): the earliest candidate with
minimal `t`. -/
def pickMinT : List (ℚ × ℚ × ℚ) → Option (ℚ × ℚ × ℚ)
  | [] => none
  | c :: rest => some (rest.foldl (fun best d => if d.1 < best.1 then d else best) c)

/-- `intersectRect` of `arrowHelpers.js` (lines 18-53): ray from `(cx, cy)`
toward `(tx, ty)`, intersected with the four edges of the axis-aligned
rectangle; candidates with positive parameter whose perpendicular coordinate
lies within the edge span are collected (left, right, top, bottom, in source
order), and the nearest is returned; an empty candidate list falls back to
`(cx, cy)`. -/
def intersectRect (cx cy tx ty rx ry rw rh : ℚ) : ℚ × ℚ :=
  let dx := tx - cx
  let dy := ty - cy
  let left := rx
  let right := rx + rw
  let top := ry
  let bottom := ry + rh
  let xcands : List (ℚ × ℚ × ℚ) :=
    if dx = 0 then [] else
      let t1 := (left - cx) / dx
      let y1 := cy + t1 * dy
      let t2 := (right - cx) / dx
      let y2 := cy + t2 * dy
      (if 0 < t1 ∧ top ≤ y1 ∧ y1 ≤ bottom then [(t1, left, y1)] else []) ++
      (if 0 < t2 ∧ top ≤ y2 ∧ y2 ≤ bottom then [(t2, right, y2)] else [])
  let ycands : List (ℚ × ℚ × ℚ) :=
    if dy = 0 then [] else
      let t3 := (top - cy) / dy
      let x3 := cx + t3 * dx
      let t4 := (bottom - cy) / dy
      let x4 := cx + t4 * dx
      (if 0 < t3 ∧ left ≤ x3 ∧ x3 ≤ right then [(t3, x3, top)] else []) ++
      (if 0 < t4 ∧ left ≤ x4 ∧ x4 ≤ right then [(t4, x4, bottom)] else [])
  match pickMinT (xcands ++ ycands) with
  | none => (cx, cy)
  | some c => (c.2.1, c.2.2)

/-- `intersectCircle` of `arrowHelpers.js` (lines 56-66): point at distance
`r` from `(cx, cy)` along the unit direction toward `(tx, ty)`;
`len = Math.hypot(dx, dy)` with an explicit `len === 0` guard. -/
noncomputable def intersectCircle (cx cy tx ty r : ℚ) : ℝ × ℝ :=
  let dx := tx - cx
  let dy := ty - cy
  let len : ℝ := Real.sqrt ((dx : ℝ) ^ 2 + (dy : ℝ) ^ 2)
  if len = 0 then ((cx : ℝ), (cy : ℝ))
  else ((cx : ℝ) + (dx : ℝ) / len * (r : ℝ), (cy : ℝ) + (dy : ℝ) / len * (r : ℝ))

/-- Endpoint selection of `connectPoints` for one side: `sticky`/`rect` use
the rectangle boundary intersection from the own center toward the other
center, `circle` uses the circle boundary intersection, anything else falls
back to the own center. -/
noncomputable def endpointToward (a b : Entity) : ℝ × ℝ :=
  let ca := centerOf a
  let cb := centerOf b
  if a.type = "sticky" ∨ a.type = "rect" then
    let p := intersectRect ca.1 ca.2 cb.1 cb.2 a.x a.y a.width a.height
    ((p.1 : ℝ), (p.2 : ℝ))
  else if a.type = "circle" then
    intersectCircle ca.1 ca.2 cb.1 cb.2 a.radius
  else
    ((ca.1 : ℝ), (ca.2 : ℝ))

/-- `connectPoints` of `arrowHelpers.js` (lines 69-104), including the
absent-entity guard `if (!start || !end) return [0, 0, 0, 0]`. -/
noncomputable def connectPoints (ostart oend : Option Entity) : List ℝ :=
  match ostart, oend with
  | some s, some e =>
      let p1 := endpointToward s e
      let p2 := endpointToward e s
      [p1.1, p1.2, p2.1, p2.2]
  | _, _ => [0, 0, 0, 0]

/-! ## Division-checked geometry

The checked variants perform every division of the source through `cdivQ` /
`cdivR`, which fail on a zero denominator (the JS counterpart of such a
division is a `NaN`/`Infinity` result).  Totality of the checked variants
states that every division of the source is guarded. -/

/-- Division that fails on a zero denominator. -/
def cdivQ (a b : ℚ) : Option ℚ := if b = 0 then none else some (a / b)

/-- Real division that fails on a zero denominator. -/
noncomputable def cdivR (a b : ℝ) : Option ℝ :=
  if b = 0 then none else some (a / b)

/-- `intersectRect` with checked divisions. -/
def intersectRectChecked (cx cy tx ty rx ry rw rh : ℚ) : Option (ℚ × ℚ) :=
  let dx := tx - cx
  let dy := ty - cy
  let left := rx
  let right := rx + rw
  let top := ry
  let bottom := ry + rh
  let xcands : Option (List (ℚ × ℚ × ℚ)) :=
    if dx = 0 then some [] else
      (cdivQ (left - cx) dx).bind fun t1 =>
      (cdivQ (right - cx) dx).bind fun t2 =>
      let y1 := cy + t1 * dy
      let y2 := cy + t2 * dy
      some ((if 0 < t1 ∧ top ≤ y1 ∧ y1 ≤ bottom then [(t1, left, y1)] else []) ++
        (if 0 < t2 ∧ top ≤ y2 ∧ y2 ≤ bottom then [(t2, right, y2)] else []))
  let ycands : Option (List (ℚ × ℚ × ℚ)) :=
    if dy = 0 then some [] else
      (cdivQ (top - cy) dy).bind fun t3 =>
      (cdivQ (bottom - cy) dy).bind fun t4 =>
      let x3 := cx + t3 * dx
      let x4 := cx + t4 * dx
      some ((if 0 < t3 ∧ left ≤ x3 ∧ x3 ≤ right then [(t3, x3, top)] else []) ++
        (if 0 < t4 ∧ left ≤ x4 ∧ x4 ≤ right then [(t4, x4, bottom)] else []))
  xcands.bind fun xs =>
    ycands.bind fun ys =>
      match pickMinT (xs ++ ys) with
      | none => some (cx, cy)
      | some c => some (c.2.1, c.2.2)

/-- `intersectCircle` with checked divisions. -/
noncomputable def intersectCircleChecked (cx cy tx ty r : ℚ) : Option (ℝ × ℝ) :=
  let dx := tx - cx
  let dy := ty - cy
  let len : ℝ := Real.sqrt ((dx : ℝ) ^ 2 + (dy : ℝ) ^ 2)
  if len = 0 then some ((cx : ℝ), (cy : ℝ))
  else
    (cdivR (dx : ℝ) len).bind fun ux =>
    (cdivR (dy : ℝ) len).bind fun uy =>
    some ((cx : ℝ) + ux * (r : ℝ), (cy : ℝ) + uy * (r : ℝ))

/-- Endpoint selection with checked divisions. -/
noncomputable def endpointTowardChecked (a b : Entity) : Option (ℝ × ℝ) :=
  let ca := centerOf a
  let cb := centerOf b
  if a.type = "sticky" ∨ a.type = "rect" then
    (intersectRectChecked ca.1 ca.2 cb.1 cb.2 a.x a.y a.width a.height).bind
      fun p => some ((p.1 : ℝ), (p.2 : ℝ))
  else if a.type = "circle" then
    intersectCircleChecked ca.1 ca.2 cb.1 cb.2 a.radius
  else
    some ((ca.1 : ℝ), (ca.2 : ℝ))

/-- `connectPoints` with checked divisions. -/
noncomputable def connectPointsChecked (ostart oend : Option Entity) :
    Option (List ℝ) :=
  match ostart, oend with
  | some s, some e =>
      (endpointTowardChecked s e).bind fun p1 =>
      (endpointTowardChecked e s).bind fun p2 =>
      some [p1.1, p1.2, p2.1, p2.2]
  | _, _ => some [0, 0, 0, 0]

/-! ## Interaction commit logic (`src/components/Canvas/BoardCanvas.jsx`) -/

/-- Freehand pointer-down (`handleMouseDown`, draw mode): the in-progress
point list is seeded with the down position `[pos.x, pos.y]`. -/
def freehandMouseDownPoints (pos : ℚ × ℚ) : List ℚ := [pos.1, pos.2]

/-- Freehand pointer-up commit test (`handleMouseUp`):
`currentLine.points.length > 3`, i.e. at least two coordinate pairs. -/
def freehandCommit (points : List ℚ) : Prop := 3 < points.length

/-- Line preview: the four stored coordinates `[x1, y1, x2, y2]`. -/
structure LinePreview where
  x1 : ℚ
  y1 : ℚ
  x2 : ℚ
  y2 : ℚ

/-- Line pointer-down (`handleMouseDown`, line mode): both endpoints are
seeded at the down position. -/
def lineMouseDown (pos : ℚ × ℚ) : LinePreview :=
  { x1 := pos.1, y1 := pos.2, x2 := pos.1, y2 := pos.2 }

/-- Endpoint distance of a line preview,
`Math.hypot(pts[2] - pts[0], pts[3] - pts[1])`. -/
noncomputable def lineDist (l : LinePreview) : ℝ :=
  Real.sqrt (((l.x2 - l.x1 : ℚ) : ℝ) ^ 2 + ((l.y2 - l.y1 : ℚ) : ℝ) ^ 2)

/-- Line pointer-up commit test (`handleMouseUp`): `dist > 10`. -/
def lineCommit (l : LinePreview) : Prop := 10 < lineDist l

/-- Arrow pointer-down (`handleMouseDown`, arrow mode): a preview anchored at
the hit entity is started only when the hit test finds an entity; the preview
records that entity's id as `startId`. -/
def arrowMouseDownPreview (hit : Option String) : Option String := hit

/-- Arrow pointer-up commit test (`handleMouseUp`): an arrow is committed
only when the end hit test finds an entity whose id differs from the preview's
`startId` (`endId && endId !== previewShape.startId`). -/
def arrowCommit (startId : String) (hit : Option String) : Prop :=
  ∃ c, hit = some c ∧ c ≠ startId

/-- Reconnection pointer-up (`handleMouseUp`, lines 283-307): with `hit` the
id of the entity found under the pointer (if any), an `UPDATE_OBJECT` setting
the grabbed endpoint (`startId` for endpoint `"start"`, `endId` otherwise) is
dispatched exactly when a hit id exists, the arrow still exists, and the hit
id differs from the arrow's current `startId`; afterwards `SET_MODE "select"`
is dispatched unconditionally. -/
def reconnectMouseUp (s : AppState) (arrowId : String) (endpoint : String)
    (hit : Option String) : AppState :=
  let s1 :=
    match hit, mlookup arrowId s.objects with
    | some c, some arrow =>
        if some c ≠ arrow.startId then
          reducer s (.updateObject arrow.id (fun e =>
            if endpoint = "start" then { e with startId := some c }
            else { e with endId := some c }))
        else s
    | _, _ => s
  reducer s1 (.setMode "select")

/-! ## Concrete fixtures used by witnesses and counterexamples -/

/-- A plain rectangle entity with the given id. -/
def rectEnt (i : String) : Entity :=
  { id := i, type := "rect", x := 0, y := 0, width := 10, height := 10 }

/-- A sticky note with box `x = 0, y = 0, width = 100, height = 50`. -/
def stickyEnt : Entity :=
  { id := "s1", type := "sticky", x := 0, y := 0, width := 100, height := 50 }

/-- A text entity with `x = 10, y = 20, width = 100, height = 30`. -/
def textEnt : Entity :=
  { id := "t1", type := "text", x := 10, y := 20, width := 100, height := 30 }

/-- An arrow entity linking `"a"` to `"b"`. -/
def arrowAB : Entity :=
  { id := "w", type := "arrow", startId := some "a", endId := some "b" }

/-- A board holding rectangles `"a"`, `"b"` and the arrow `"w" : a → b`. -/
def boardAB : AppState :=
  { objects := [("a", rectEnt "a"), ("b", rectEnt "b"), ("w", arrowAB)]
    selectedIds := []
    mode := "select"
    history := []
    future := []
    historyLimit := 50
    reconnect := { active := false, arrowId := none, endpoint := none } }

/-! ## Helper lemmas -/

theorem mlookup_map_set (k : String) (v : Entity) :
    ∀ m : List (String × Entity), (mlookup k m).isSome = true →
      mlookup k (m.map fun p => if p.1 = k then (k, v) else p) = some v := by
  intro m
  induction m with
  | nil => intro h; simp [mlookup] at h
  | cons a rest ih =>
      intro h
      by_cases ha : a.1 = k
      · simp [mlookup, ha]
      · simp only [mlookup, ha, if_false] at h
        simp [mlookup, ha, ih h]

theorem mlookup_append_self (k : String) (v : Entity) :
    ∀ m : List (String × Entity), mlookup k m = none →
      mlookup k (m ++ [(k, v)]) = some v := by
  intro m
  induction m with
  | nil => intro _; simp [mlookup]
  | cons a rest ih =>
      intro h
      by_cases ha : a.1 = k
      · simp [mlookup, ha] at h
      · simp only [mlookup, ha, if_false] at h
        simp [mlookup, ha, ih h]

theorem mlookup_minsert_self (k : String) (v : Entity)
    (m : List (String × Entity)) : mlookup k (minsert k v m) = some v := by
  unfold minsert
  by_cases h : (mlookup k m).isSome = true
  · simp only [h, if_true]
    exact mlookup_map_set k v m h
  · simp only [h, if_false]
    exact mlookup_append_self k v m (Option.not_isSome_iff_eq_none.mp (by simpa using h))

theorem mlookup_map_set_ne (k k' : String) (v : Entity) (hk : k' ≠ k) :
    ∀ m : List (String × Entity),
      mlookup k' (m.map fun p => if p.1 = k then (k, v) else p) = mlookup k' m := by
  intro m
  induction m with
  | nil => rfl
  | cons a rest ih =>
      simp only [List.map_cons]
      by_cases ha : a.1 = k
      · have h1 : ¬ k = k' := fun hh => hk hh.symm
        have h2 : ¬ a.1 = k' := fun hh => hk (hh.symm.trans ha)
        rw [if_pos ha]
        show (if k = k' then some v else
            mlookup k' (rest.map fun p => if p.1 = k then (k, v) else p)) =
          (if a.1 = k' then some a.2 else mlookup k' rest)
        rw [if_neg h1, if_neg h2, ih]
      · rw [if_neg ha]
        show (if a.1 = k' then some a.2 else
            mlookup k' (rest.map fun p => if p.1 = k then (k, v) else p)) =
          (if a.1 = k' then some a.2 else mlookup k' rest)
        rw [ih]

theorem mlookup_append_single_ne (k k' : String) (v : Entity) (hk : k' ≠ k) :
    ∀ m : List (String × Entity),
      mlookup k' (m ++ [(k, v)]) = mlookup k' m := by
  intro m
  induction m with
  | nil =>
      show (if k = k' then some v else mlookup k' []) = none
      rw [if_neg (fun hh => hk hh.symm)]
      rfl
  | cons a rest ih =>
      show (if a.1 = k' then some a.2 else mlookup k' (rest ++ [(k, v)])) =
        (if a.1 = k' then some a.2 else mlookup k' rest)
      rw [ih]

theorem mlookup_minsert_ne (k k' : String) (v : Entity)
    (m : List (String × Entity)) (hk : k' ≠ k) :
    mlookup k' (minsert k v m) = mlookup k' m := by
  unfold minsert
  by_cases h : (mlookup k m).isSome = true
  · simp only [h, if_true]
    exact mlookup_map_set_ne k k' v hk m
  · simp only [h, if_false]
    exact mlookup_append_single_ne k k' v hk m

theorem mlookup_mremove_ne (k k' : String) (m : List (String × Entity))
    (hk : k' ≠ k) : mlookup k' (mremove k m) = mlookup k' m := by
  induction m with
  | nil => rfl
  | cons a rest ih =>
      simp only [mremove, List.filter_cons] at ih ⊢
      by_cases ha : a.1 = k
      · have ha' : ¬ a.1 = k' := fun hh => hk (hh.symm.trans ha)
        rw [if_neg (by simp [decide_eq_true_eq, ha]), ih]
        show mlookup k' rest = if a.1 = k' then some a.2 else mlookup k' rest
        rw [if_neg ha']
      · rw [if_pos (by simp [decide_eq_true_eq, ha])]
        show (if a.1 = k' then some a.2
            else mlookup k' (rest.filter fun p => decide (p.1 ≠ k))) =
          (if a.1 = k' then some a.2 else mlookup k' rest)
        rw [ih]

theorem mremove_not_mem (k : String) (m : List (String × Entity))
    (h : mlookup k m = none) : mremove k m = m := by
  induction m with
  | nil => rfl
  | cons a rest ih =>
      by_cases ha : a.1 = k
      · simp [mlookup, ha] at h
      · simp only [mlookup, ha, if_false] at h
        simp [mremove, ha] at *
        exact ih h

theorem intersectRectChecked_isSome (cx cy tx ty rx ry rw rh : ℚ) :
    (intersectRectChecked cx cy tx ty rx ry rw rh).isSome = true := by
  unfold intersectRectChecked
  by_cases hdx : tx - cx = 0 <;> by_cases hdy : ty - cy = 0 <;>
    simp [hdx, hdy, cdivQ] <;> (try split) <;> simp

theorem intersectCircleChecked_isSome (cx cy tx ty r : ℚ) :
    (intersectCircleChecked cx cy tx ty r).isSome = true := by
  unfold intersectCircleChecked
  by_cases h : Real.sqrt (((tx : ℝ) - (cx : ℝ)) ^ 2 + ((ty : ℝ) - (cy : ℝ)) ^ 2) = 0 <;>
    simp [h, cdivR]

theorem endpointTowardChecked_isSome (a b : Entity) :
    (endpointTowardChecked a b).isSome = true := by
  unfold endpointTowardChecked
  by_cases h1 : a.type = "sticky" ∨ a.type = "rect"
  · have h := intersectRectChecked_isSome (centerOf a).1 (centerOf a).2
      (centerOf b).1 (centerOf b).2 a.x a.y a.width a.height
    rcases Option.isSome_iff_exists.mp h with ⟨p, hp⟩
    simp [h1, hp]
  · by_cases h2 : a.type = "circle"
    · simp [h1, h2, intersectCircleChecked_isSome]
    · simp [h1, h2]

theorem reducer_update_present (s : AppState) (i : String) (f : Entity → Entity)
    (e : Entity) (h : mlookup i s.objects = some e) :
    reducer s (.updateObject i f) =
      { s with objects := minsert i (f e) s.objects
               history := s.history ++ [s.objects]
               future := [] } := by
  simp [reducer, h]

theorem reducer_setMode (s : AppState) (m : String) :
    reducer s (.setMode m) = { s with mode := m } := rfl

theorem undoStep_concat (s : AppState) (l : List (List (String × Entity)))
    (p : List (String × Entity)) (h : s.history = l ++ [p]) :
    undoStep s =
      { s with objects := p
               history := l
               future := s.future ++ [s.objects]
               selectedIds := [] } := by
  have h1 : s.history.getLast? = some p := by
    rw [h]
    exact List.getLast?_concat _
  have h2 : s.history.dropLast = l := by
    rw [h]
    exact List.dropLast_concat
  simp only [undoStep, reducer, h1, h2]

theorem undoStep_nil (s : AppState) (h : s.history = []) : undoStep s = s := by
  simp [undoStep, reducer, h]

theorem redoStep_concat (s : AppState) (l : List (List (String × Entity)))
    (p : List (String × Entity)) (h : s.future = l ++ [p]) :
    redoStep s =
      { s with objects := p
               future := l
               history := s.history ++ [s.objects]
               selectedIds := [] } := by
  have h1 : s.future.getLast? = some p := by
    rw [h]
    exact List.getLast?_concat _
  have h2 : s.future.dropLast = l := by
    rw [h]
    exact List.dropLast_concat
  simp only [redoStep, reducer, h1, h2]

theorem redoStep_nil (s : AppState) (h : s.future = []) : redoStep s = s := by
  simp [redoStep, reducer, h]

theorem undoN_redoN_restore :
    ∀ (n : Nat) (s : AppState), n ≤ s.history.length →
      redoN n (undoN n s) = if n = 0 then s else { s with selectedIds := [] } := by
  intro n
  induction n with
  | zero => intro s _; simp [undoN, redoN]
  | succ n ih =>
      intro s h
      have hne : s.history ≠ [] := by
        intro he
        rw [he] at h
        exact absurd h (by simp)
      have hconcat : s.history.dropLast ++ [s.history.getLast hne] = s.history :=
        List.dropLast_append_getLast hne
      have hu : undoStep s =
          { s with objects := s.history.getLast hne
                   history := s.history.dropLast
                   future := s.future ++ [s.objects]
                   selectedIds := [] } :=
        undoStep_concat s s.history.dropLast (s.history.getLast hne) hconcat.symm
      have hlenlast : s.history.length = s.history.dropLast.length + 1 := by
        conv_lhs => rw [← hconcat]
        simp
      have hlen : n ≤ (({ s with objects := s.history.getLast hne
                                 history := s.history.dropLast
                                 future := s.future ++ [s.objects]
                                 selectedIds := [] } : AppState)).history.length := by
        show n ≤ s.history.dropLast.length
        omega
      have step1 : undoN (n + 1) s = undoN n (undoStep s) :=
        Function.iterate_succ_apply undoStep n s
      have step2 : ∀ x, redoN (n + 1) x = redoStep (redoN n x) := fun x =>
        Function.iterate_succ_apply' redoStep n x
      rw [step1, hu, step2, ih _ hlen]
      have hite : (if n = 0 then
            ({ s with objects := s.history.getLast hne
                      history := s.history.dropLast
                      future := s.future ++ [s.objects]
                      selectedIds := [] } : AppState)
          else
            { ({ s with objects := s.history.getLast hne
                        history := s.history.dropLast
                        future := s.future ++ [s.objects]
                        selectedIds := ([] : List String) } : AppState) with
              selectedIds := [] }) =
          { s with objects := s.history.getLast hne
                   history := s.history.dropLast
                   future := s.future ++ [s.objects]
                   selectedIds := [] } := by
        split <;> rfl
      rw [hite]
      have hr := redoStep_concat
        { s with objects := s.history.getLast hne
                 history := s.history.dropLast
                 future := s.future ++ [s.objects]
                 selectedIds := ([] : List String) }
        s.future s.objects rfl
      rw [hr]
      rw [if_neg (Nat.succ_ne_zero n)]
      show ({ s with objects := s.objects
                     history := s.history.dropLast ++ [s.history.getLast hne]
                     future := s.future
                     selectedIds := ([] : List String) } : AppState) =
        { s with selectedIds := [] }
      rw [hconcat]

theorem mutating_effective_push (s : AppState) (a : Action)
    (hm : isMutating a = true) (he : effectiveOn a s = true) :
    (reducer s a).history = s.history ++ [s.objects] := by
  cases a with
  | setMode m => simp [isMutating] at hm
  | setSelected ids => simp [isMutating] at hm
  | addObject p => rfl
  | updateObject i f =>
      rcases h : mlookup i s.objects with _ | e
      · simp [effectiveOn, h] at he
      · simp [reducer, h]
  | deleteObject i => rfl
  | clearBoard => rfl
  | undo => simp [isMutating] at hm
  | redo => simp [isMutating] at hm
  | reconnectStart aid ep => simp [isMutating] at hm
  | reconnectEnd => simp [isMutating] at hm
  | unknown => simp [isMutating] at hm

theorem applyAll_history_length :
    ∀ (acts : List Action) (s : AppState), acts.all isMutating = true →
      effectiveSeq s acts = true →
      (applyAll s acts).history.length = s.history.length + acts.length := by
  intro acts
  induction acts with
  | nil => intro s _ _; simp [applyAll]
  | cons a rest ih =>
      intro s hm he
      have hm1 : isMutating a = true ∧ rest.all isMutating = true := by
        simpa [List.all_cons, Bool.and_eq_true] using hm
      have he1 : effectiveOn a s = true ∧ effectiveSeq (reducer s a) rest = true := by
        simpa [effectiveSeq, Bool.and_eq_true] using he
      have hfold : applyAll s (a :: rest) = applyAll (reducer s a) rest := rfl
      rw [hfold, ih (reducer s a) hm1.2 he1.2,
        mutating_effective_push s a hm1.1 he1.1]
      simp only [List.length_append, List.length_cons, List.length_nil]
      omega

/-! ## Claims -/

/-- C3 counterexample: the claim states that `center` returns the stored
`(x, y)` unchanged for `sticky` entities and `(x + width/2, y + height/2)`
for `text` entities.  On the sticky note with box `(0, 0, 100, 50)`,
`getCenter` of `arrowHelpers.js` returns the box center `(50, 25)`, not the
raw `(0, 0)`; and on the text entity at `(10, 20)` with `width = 100`,
`height = 30`, `getObjectCenter` of `BoardCanvas.jsx` returns `(60, 32)`,
not `(60, 35)`. -/
theorem c3_center_counterexample :
    getCenter (some stickyEnt) = (50, 25)
    ∧ getCenter (some stickyEnt) ≠ (stickyEnt.x, stickyEnt.y)
    ∧ getObjectCenter (some textEnt) = (60, 32)
    ∧ getObjectCenter (some textEnt) ≠
        (textEnt.x + textEnt.width / 2, textEnt.y + textEnt.height / 2) := by
  refine ⟨?_, ?_, ?_, ?_⟩ <;>
    simp [getCenter, centerOf, getObjectCenter, stickyEnt, textEnt,
      Prod.ext_iff] <;> norm_num

/-- C3 amended: `getCenter` of `arrowHelpers.js` returns the box center
`(x + width/2, y + height/2)` for `rect` and `sticky` and the raw `(x, y)`
for every other type (including `circle`, `image` and `text`); a null entity
yields `(0, 0)`; the function is total.  The canvas-layer `getObjectCenter`
instead returns the raw `(x, y)` for `circle`, `image` and `sticky`, the box
center for `rect`, `(x + (width or 80)/2, y + 12)` for `text`, and the raw
`(x, y)` otherwise. -/
theorem c3_center_amended (e : Entity) :
    getCenter none = (0, 0)
    ∧ getObjectCenter none = (0, 0)
    ∧ (e.type = "rect" ∨ e.type = "sticky" →
        getCenter (some e) = (e.x + e.width / 2, e.y + e.height / 2))
    ∧ (e.type ≠ "rect" ∧ e.type ≠ "sticky" → getCenter (some e) = (e.x, e.y))
    ∧ (e.type = "circle" ∨ e.type = "image" ∨ e.type = "sticky" →
        getObjectCenter (some e) = (e.x, e.y))
    ∧ (e.type = "rect" →
        getObjectCenter (some e) = (e.x + e.width / 2, e.y + e.height / 2))
    ∧ (e.type = "text" →
        getObjectCenter (some e) =
          (e.x + (if e.width = 0 then 80 else e.width) / 2, e.y + 12))
    ∧ (e.type ≠ "circle" ∧ e.type ≠ "image" ∧ e.type ≠ "sticky"
        ∧ e.type ≠ "rect" ∧ e.type ≠ "text" →
        getObjectCenter (some e) = (e.x, e.y)) := by
  refine ⟨rfl, rfl, ?_, ?_, ?_, ?_, ?_, ?_⟩
  · rintro (h | h) <;> simp [getCenter, centerOf, h]
  · rintro ⟨h1, h2⟩
    simp [getCenter, centerOf, h1, h2]
  · rintro (h | h | h) <;> simp [getObjectCenter, h]
  · intro h
    simp [getObjectCenter, h]
  · intro h
    simp [getObjectCenter, h]
  · rintro ⟨h1, h2, h3, h4, h5⟩
    simp [getObjectCenter, h1, h2, h3, h4, h5]

/-- C3 witness: the amended characterization evaluated on the concrete
sticky note, text entity and arrow entity (a type outside the five center
branches of `getObjectCenter`). -/
theorem c3_center_witness :
    getCenter (some stickyEnt) =
      (stickyEnt.x + stickyEnt.width / 2, stickyEnt.y + stickyEnt.height / 2)
    ∧ getObjectCenter (some stickyEnt) = (stickyEnt.x, stickyEnt.y)
    ∧ getObjectCenter (some textEnt) =
        (textEnt.x + (if textEnt.width = 0 then 80 else textEnt.width) / 2,
          textEnt.y + 12)
    ∧ getObjectCenter (some arrowAB) = (arrowAB.x, arrowAB.y) :=
  ⟨(c3_center_amended stickyEnt).2.2.1 (Or.inr rfl),
   (c3_center_amended stickyEnt).2.2.2.2.1 (Or.inr (Or.inr rfl)),
   (c3_center_amended textEnt).2.2.2.2.2.2.1 rfl,
   (c3_center_amended arrowAB).2.2.2.2.2.2.2 (by decide)⟩

/-- C7: `connectPoints` returns exactly `[0, 0, 0, 0]` whenever either
entity argument is absent, and (being a total function) does not throw. -/
theorem c7_connect_absent (ostart oend : Option Entity)
    (h : ostart = none ∨ oend = none) :
    connectPoints ostart oend = [0, 0, 0, 0] := by
  rcases h with h | h
  · subst h
    cases oend <;> rfl
  · subst h
    cases ostart <;> rfl

/-- C7 witness: an arrow whose start entity was deleted resolves to an
absent start, and `connectPoints` yields `[0, 0, 0, 0]`. -/
theorem c7_connect_absent_witness :
    connectPoints none (some (rectEnt "b")) = [0, 0, 0, 0] :=
  c7_connect_absent none (some (rectEnt "b")) (Or.inl rfl)

/-- C8: a pointer-down immediately followed by a pointer-up at the same
coordinates commits nothing in draw, line and arrow modes: the freehand seed
`[pos.x, pos.y]` has fewer than two coordinate pairs, the degenerate line
preview has endpoint distance `0`, which is not greater than `10`, and the
arrow path's end hit test at the same position finds the same entity as the
start (or none), failing the distinctness check. -/
theorem c8_click_no_move (pos : ℚ × ℚ) (ht : ℚ × ℚ → Option String)
    (sid : String) :
    ¬ freehandCommit (freehandMouseDownPoints pos)
    ∧ ¬ lineCommit (lineMouseDown pos)
    ∧ (arrowMouseDownPreview (ht pos) = some sid →
        ¬ arrowCommit sid (ht pos)) := by
  refine ⟨?_, ?_, ?_⟩
  · simp [freehandCommit, freehandMouseDownPoints]
  · simp [lineCommit, lineDist, lineMouseDown, sub_self, Real.sqrt_zero]
  · intro h hc
    obtain ⟨c, hc1, hc2⟩ := hc
    simp only [arrowMouseDownPreview] at h
    rw [h] at hc1
    exact hc2 (Option.some_injective _ hc1.symm)

/-- C8 witness: the no-commit conclusions evaluated at the origin with a hit
test that always returns entity `"a"`. -/
theorem c8_click_no_move_witness :
    ¬ freehandCommit (freehandMouseDownPoints (0, 0))
    ∧ ¬ lineCommit (lineMouseDown (0, 0))
    ∧ ¬ arrowCommit "a" (some "a") :=
  ⟨(c8_click_no_move (0, 0) (fun _ => some "a") "a").1,
   (c8_click_no_move (0, 0) (fun _ => some "a") "a").2.1,
   (c8_click_no_move (0, 0) (fun _ => some "a") "a").2.2 rfl⟩

/-- C10: `connectPoints` with every division checked for a zero denominator
always succeeds: the rectangle helper divides only under its `dx ≠ 0` /
`dy ≠ 0` guards and falls back to the source center on an empty candidate
list, and the circle helper divides only after its `len === 0` guard, so no
`NaN` or `Infinity` can arise from finite inputs. -/
theorem c10_connect_points_total (ostart oend : Option Entity) :
    (connectPointsChecked ostart oend).isSome = true := by
  rcases ostart with _ | s
  · cases oend <;> rfl
  rcases oend with _ | e
  · rfl
  have h1 := endpointTowardChecked_isSome s e
  have h2 := endpointTowardChecked_isSome e s
  rcases Option.isSome_iff_exists.mp h1 with ⟨p1, hp1⟩
  rcases Option.isSome_iff_exists.mp h2 with ⟨p2, hp2⟩
  simp [connectPointsChecked, hp1, hp2]

/-- C4 counterexample: the claim states that `DELETE_OBJECT` on an absent id
is a no-op leaving the entire state (including history and future)
unchanged.  Dispatching `DELETE_OBJECT "x"` on the initial state (which holds
no object `"x"`) changes the state: the reducer unconditionally pushes a
history snapshot. -/
theorem c4_delete_absent_counterexample :
    reducer initialState (.deleteObject "x") ≠ initialState
    ∧ (reducer initialState (.deleteObject "x")).history = [[]] := by
  decide

/-- C4 amended: an unknown action kind returns the input state unchanged
(never throws), and `UPDATE_OBJECT` on an absent id is an exact no-op;
`DELETE_OBJECT` on an absent id leaves the object mapping unchanged and
filters the id from the selection, but still pushes a history snapshot and
clears the future stack. -/
theorem c4_failure_semantics_amended (s : AppState) :
    reducer s .unknown = s
    ∧ (∀ (i : String) (f : Entity → Entity), mlookup i s.objects = none →
        reducer s (.updateObject i f) = s)
    ∧ (∀ i : String, mlookup i s.objects = none →
        (reducer s (.deleteObject i)).objects = s.objects
        ∧ (reducer s (.deleteObject i)).selectedIds =
            s.selectedIds.filter (fun j => j ≠ i)
        ∧ (reducer s (.deleteObject i)).history = s.history ++ [s.objects]
        ∧ (reducer s (.deleteObject i)).future = []) := by
  refine ⟨rfl, ?_, ?_⟩
  · intro i f h
    simp [reducer, h]
  · intro i h
    exact ⟨mremove_not_mem i s.objects h, rfl, rfl, rfl⟩

/-- C4 witness: the amended failure semantics evaluated on the initial
state with the absent id `"x"`. -/
theorem c4_failure_semantics_witness :
    reducer initialState .unknown = initialState
    ∧ reducer initialState (.updateObject "x" id) = initialState
    ∧ (reducer initialState (.deleteObject "x")).history =
        initialState.history ++ [initialState.objects] :=
  ⟨(c4_failure_semantics_amended initialState).1,
   (c4_failure_semantics_amended initialState).2.1 "x" id rfl,
   ((c4_failure_semantics_amended initialState).2.2 "x" rfl).2.2.1⟩

/-- C5: every mutating action other than `UNDO`/`REDO` (`ADD_OBJECT`,
`UPDATE_OBJECT` on a present id, `DELETE_OBJECT`, `CLEAR_BOARD`) leaves the
future stack empty, and a subsequent `REDO` returns the state unchanged.
Instantiating the state with any post-`UNDO` state gives the claim's
scenario: Undo, then a new edit, then a no-op Redo. -/
theorem c5_new_edit_clears_future (s : AppState) (a : Action)
    (hm : isMutating a = true) (he : effectiveOn a s = true) :
    (reducer s a).future = [] ∧ reducer (reducer s a) .redo = reducer s a := by
  cases a with
  | setMode m => simp [isMutating] at hm
  | setSelected ids => simp [isMutating] at hm
  | addObject p => exact ⟨rfl, rfl⟩
  | updateObject i f =>
      rcases h : mlookup i s.objects with _ | e
      · simp [effectiveOn, h] at he
      · refine ⟨?_, ?_⟩ <;> simp [reducer, h]
  | deleteObject i => exact ⟨rfl, rfl⟩
  | clearBoard => exact ⟨rfl, rfl⟩
  | undo => simp [isMutating] at hm
  | redo => simp [isMutating] at hm
  | reconnectStart aid ep => simp [isMutating] at hm
  | reconnectEnd => simp [isMutating] at hm
  | unknown => simp [isMutating] at hm

/-- C5 witness: an `ADD_OBJECT` right after an `UNDO` leaves `future` empty
and makes the following `REDO` a no-op. -/
theorem c5_new_edit_clears_future_witness :
    (reducer (reducer boardAB .undo) (.addObject (rectEnt "c"))).future = []
    ∧ reducer (reducer (reducer boardAB .undo) (.addObject (rectEnt "c"))) .redo =
        reducer (reducer boardAB .undo) (.addObject (rectEnt "c")) :=
  c5_new_edit_clears_future (reducer boardAB .undo) (.addObject (rectEnt "c"))
    rfl rfl

/-- C9 counterexample: the claim states the selection referential invariant
is preserved by every action kind including `SET_SELECTED`.  But the reducer
installs the `SET_SELECTED` payload verbatim: one dispatch from the initial
state selects the id `"ghost"`, which is not a key of the (empty) object
mapping. -/
theorem c9_selection_counterexample :
    "ghost" ∈ (reducer initialState (.setSelected ["ghost"])).selectedIds
    ∧ mlookup "ghost" (reducer initialState (.setSelected ["ghost"])).objects
        = none
    ∧ ¬ SelInv (reducer initialState (.setSelected ["ghost"])) := by
  refine ⟨by decide, by decide, ?_⟩
  intro h
  have := h "ghost" (by decide)
  simp [mlookup] at this

/-- C9 amended: the selection referential invariant is preserved by every
action kind except that `SET_SELECTED` requires its payload to name only
present ids (the reducer installs the payload verbatim);
`ADD_OBJECT`, `UPDATE_OBJECT`, `DELETE_OBJECT`, `CLEAR_BOARD`, `UNDO`,
`REDO`, `SET_MODE`, the reconnect actions and unknown actions preserve it
unconditionally. -/
theorem c9_selection_invariant_amended (s : AppState) (a : Action)
    (hs : SelInv s) (ha : selOk a s = true) : SelInv (reducer s a) := by
  cases a with
  | setMode m => exact fun i hi => hs i hi
  | setSelected ids =>
      intro i hi
      exact (List.all_eq_true.mp ha) i hi
  | addObject p =>
      intro i hi
      have hip : i = p.id := by simpa [reducer] using hi
      show (mlookup i (minsert p.id p s.objects)).isSome = true
      rw [hip, mlookup_minsert_self]
      rfl
  | updateObject j f =>
      rcases h : mlookup j s.objects with _ | e
      · simpa [reducer, h] using hs
      · intro i hi
        have hi' : i ∈ s.selectedIds := by simpa [reducer, h] using hi
        have hobj : (reducer s (.updateObject j f)).objects =
            minsert j (f e) s.objects := by simp [reducer, h]
        rw [hobj]
        by_cases hij : i = j
        · subst hij
          rw [mlookup_minsert_self]
          rfl
        · rw [mlookup_minsert_ne j i (f e) s.objects hij]
          exact hs i hi'
  | deleteObject j =>
      intro i hi
      have hi' : i ∈ s.selectedIds.filter (fun x => x ≠ j) := hi
      rw [List.mem_filter] at hi'
      have hij : i ≠ j := by simpa [decide_eq_true_eq] using hi'.2
      show (mlookup i (mremove j s.objects)).isSome = true
      rw [mlookup_mremove_ne j i s.objects hij]
      exact hs i hi'.1
  | clearBoard =>
      intro i hi
      simp [reducer] at hi
  | undo =>
      rcases h : s.history.getLast? with _ | p
      · simpa [reducer, h] using hs
      · intro i hi
        simp [reducer, h] at hi
  | redo =>
      rcases h : s.future.getLast? with _ | p
      · simpa [reducer, h] using hs
      · intro i hi
        simp [reducer, h] at hi
  | reconnectStart aid ep => exact fun i hi => hs i hi
  | reconnectEnd => exact fun i hi => hs i hi
  | unknown => exact hs

/-- C9 witness: preservation evaluated on a concrete step — selecting the
present id `"a"` on the three-object board. -/
theorem c9_selection_invariant_witness :
    SelInv (reducer boardAB (.setSelected ["a"])) :=
  c9_selection_invariant_amended boardAB (.setSelected ["a"])
    (fun i hi => by simp [boardAB] at hi) (by decide)

/-- C1 counterexample: the claim quantifies over any starting state and any
sequence of mutating actions, including `UPDATE_OBJECT` on an absent id.
Start from the reachable state obtained by `ADD_OBJECT "a"` then `UNDO`
(empty history, non-empty future) and apply the single mutating action
`UPDATE_OBJECT "x"` (absent id, so the reducer pushes no snapshot): `UNDO`
once is then a no-op, and `REDO` once restores the undone `future` snapshot
containing `"a"`, so the final object mapping differs from the mapping after
the action. -/
theorem c1_undo_redo_counterexample :
    isMutating (Action.updateObject "x" (fun e => e)) = true
    ∧ 1 ≤ (reducer (reducer (reducer initialState
        (.addObject (rectEnt "a"))) .undo)
        (.updateObject "x" (fun e => e))).historyLimit
    ∧ (redoN 1 (undoN 1 (reducer (reducer (reducer initialState
          (.addObject (rectEnt "a"))) .undo)
          (.updateObject "x" (fun e => e))))).objects ≠
        (reducer (reducer (reducer initialState
          (.addObject (rectEnt "a"))) .undo)
          (.updateObject "x" (fun e => e))).objects := by
  refine ⟨rfl, by decide, by decide⟩

/-- C1 amended: for any starting state and any sequence of n mutating
actions each of which is effective (every `UPDATE_OBJECT` targets an id
present when it is applied — the reducer pushes no history snapshot for an
absent id), with n at most the history cap, applying `UNDO` n times and then
`REDO` n times restores the object mapping of the state after the n-th
action. -/
theorem c1_undo_redo_amended (s : AppState) (acts : List Action)
    (hm : acts.all isMutating = true) (he : effectiveSeq s acts = true)
    (hcap : acts.length ≤ s.historyLimit) :
    (redoN acts.length (undoN acts.length (applyAll s acts))).objects =
      (applyAll s acts).objects := by
  have hlen : acts.length ≤ (applyAll s acts).history.length := by
    rw [applyAll_history_length acts s hm he]
    omega
  rw [undoN_redoN_restore acts.length (applyAll s acts) hlen]
  split <;> rfl

/-- C1 witness: the inverse law evaluated on the concrete sequence
`[ADD_OBJECT "r1"]` from the initial state. -/
theorem c1_undo_redo_witness :
    (redoN 1 (undoN 1 (applyAll initialState
        [.addObject (rectEnt "r1")]))).objects =
      (applyAll initialState [.addObject (rectEnt "r1")]).objects :=
  c1_undo_redo_amended initialState [.addObject (rectEnt "r1")] rfl rfl
    (by decide)

/-- C2: the reducer never references `historyLimit`; after 51 `ADD_OBJECT`
dispatches from the initial state (whose configured cap is 50) the history
stack holds 51 snapshots — the cap invariant claimed by the specification is
violated and no FIFO eviction occurs. -/
theorem c2_history_cap_violated :
    (applyAll initialState
        (List.replicate 51 (Action.addObject (rectEnt "a")))).history.length = 51
    ∧ initialState.historyLimit = 50 := by
  exact ⟨by decide, rfl⟩

/-- C6 counterexample: the claim states a reconnection target is accepted
iff it is distinct from the fixed (non-grabbed) endpoint's entity.  Grab the
start handle of the arrow `w : a → b` on the three-object board and drop it
on entity `"b"` — the entity of the fixed end endpoint.  The claim demands a
rejection, but the code compares the target against `startId` (`"a"`), so it
dispatches the update and the arrow becomes the self-referential `b → b`. -/
theorem c6_reconnect_counterexample :
    mlookup "w" (reconnectMouseUp boardAB "w" "start" (some "b")).objects =
      some { arrowAB with startId := some "b" }
    ∧ ({ arrowAB with startId := some "b" } : Entity).startId =
        ({ arrowAB with startId := some "b" } : Entity).endId
    ∧ (reconnectMouseUp boardAB "w" "start" (some "b")).objects ≠
        boardAB.objects := by
  refine ⟨by decide, rfl, by decide⟩

/-- C6 amended: on pointer-up the grabbed endpoint (`startId` for the
`"start"` handle, `endId` otherwise) is updated to the hit entity's id iff a
target entity is found whose id is distinct from the arrow's current
`startId`; otherwise no object mutation is dispatched.  For an end-handle
grab the comparison id is the fixed endpoint, as the claim states; for a
start-handle grab the comparison is against the grabbed endpoint's own
previous value, so dropping the start handle on the fixed end entity is
accepted (yielding a self-referential arrow) and dropping it on its previous
entity is rejected. -/
theorem c6_reconnect_amended (s : AppState) (aid ep : String)
    (hit : Option String) (a : Entity) (hla : mlookup aid s.objects = some a)
    (hid : a.id = aid) :
    (∀ c, hit = some c → some c ≠ a.startId →
      mlookup aid (reconnectMouseUp s aid ep hit).objects =
        some (if ep = "start" then { a with startId := some c }
          else { a with endId := some c })
      ∧ (reconnectMouseUp s aid ep hit).history = s.history ++ [s.objects])
    ∧ (∀ c, hit = some c → some c = a.startId →
      (reconnectMouseUp s aid ep hit).objects = s.objects
      ∧ (reconnectMouseUp s aid ep hit).history = s.history)
    ∧ (hit = none →
      (reconnectMouseUp s aid ep hit).objects = s.objects
      ∧ (reconnectMouseUp s aid ep hit).history = s.history) := by
  refine ⟨?_, ?_, ?_⟩
  · intro c hc hne
    subst hc
    have hla' : mlookup a.id s.objects = some a := by rw [hid]; exact hla
    simp only [reconnectMouseUp, hla]
    rw [if_pos hne, reducer_update_present s a.id _ a hla', reducer_setMode]
    refine ⟨?_, rfl⟩
    rw [← hid]
    simpa using mlookup_minsert_self a.id
      (if ep = "start" then { a with startId := some c }
        else { a with endId := some c }) s.objects
  · intro c hc heq
    subst hc
    simp only [reconnectMouseUp, hla]
    rw [if_neg (fun hh => hh heq)]
    exact ⟨rfl, rfl⟩
  · intro hc
    subst hc
    exact ⟨rfl, rfl⟩

/-- C6 witness: reconnecting the end handle of `w : a → b` onto the distinct
entity `"c"` updates `endId` to `"c"` and pushes one history snapshot. -/
theorem c6_reconnect_witness :
    mlookup "w" (reconnectMouseUp boardAB "w" "end" (some "c")).objects =
      some (if "end" = "start" then { arrowAB with startId := some "c" }
        else { arrowAB with endId := some "c" })
    ∧ (reconnectMouseUp boardAB "w" "end" (some "c")).history =
        boardAB.history ++ [boardAB.objects] :=
  (c6_reconnect_amended boardAB "w" "end" (some "c") arrowAB (by decide)
    rfl).1 "c" rfl (by decide)

end WhiteBoard
